import Mathlib

/-!
Verification of the litecord repository against its natural-language
specification.  The Python source is shallowly embedded: dictionaries become
association lists over an inductive JSON-like `Value` type, fallible code
returns `Except`/`Option`, and the dispatch engine (whose implementation
lives in the `litecord.pubsub` submodules) is modelled from the spec where
noted.
-/

namespace Litecord

/-- A JSON-like value, modelling the Python objects the embedded functions
manipulate (dicts, lists, strings, numbers, booleans, None). -/
inductive Value where
  | vnull : Value
  | vbool : Bool → Value
  | vnum : Int → Value
  | vstr : String → Value
  | vlist : List Value → Value
  | vdict : List (String × Value) → Value

/-- Lookup of a key in a Python dict modelled as an association list
(first matching key wins, as dict keys are unique in Python). -/
def lookupD : List (String × Value) → String → Option Value
  | [], _ => none
  | (k, v) :: rest, key => if k == key then some v else lookupD rest key

/-- Python `d[key]`-style indexing on an arbitrary value: succeeds only on a
dict holding the key; everything else raises (KeyError / TypeError), which
the embedding renders as `none`. -/
def pyIndex (v : Value) (key : String) : Option Value :=
  match v with
  | .vdict xs => lookupD xs key
  | _ => none

/-! ## litecord/embed/sanitizer.py -/

/-- Python dict update `{**e, key: v}` at the mapping level: replaces the
first occurrence of `key` in place, or appends `(key, v)` when absent. -/
def dictSet : List (String × Value) → String → Value → List (String × Value)
  | [], key, v => [(key, v)]
  | (k0, v0) :: rest, key, v =>
    if k0 == key then (k0, v) :: rest else (k0, v0) :: dictSet rest key v

/-- Embedding of `sanitize_embed`: returns `{**embed, **{"type": "rich"}}`. -/
def sanitize_embed (embed : List (String × Value)) : List (String × Value) :=
  dictSet embed "type" (.vstr "rich")

/-- Embedding of `path_exists` on an already-split component list.  The
source recurses on `components[1:]`, returning `True` on the empty list and
`False` when `embed[current]` raises (KeyError/TypeError/ValueError). -/
def path_exists (embed : Value) : List String → Bool
  | [] => true
  | current :: rest =>
    match pyIndex embed current with
    | some inner => path_exists inner rest
    | none => false

/-- Python `s.split(sep)` for a single-character separator, on the list of
characters: splitting the empty string yields one empty part, exactly as in
Python. -/
def splitOnChar (sep : Char) : List Char → List (List Char)
  | [] => [[]]
  | c :: rest =>
    let r := splitOnChar sep rest
    if c == sep then [] :: r
    else
      match r with
      | t :: ts => (c :: t) :: ts
      | [] => [[c]]

/-- Python `s.split(sep)` for a single-character separator, on strings. -/
def pySplit (s : String) (sep : Char) : List String :=
  (splitOnChar sep s.data).map (fun cs => String.mk cs)

/-- Embedding of `path_exists` when handed a dot-separated string: the
source does `components_in.split(".")` first. -/
def path_exists_str (embed : Value) (components_in : String) : Bool :=
  path_exists embed (pySplit components_in '.')

/-- Specification-side description of `path_exists`: successively index the
value by each component, propagating failure. -/
def lookupChain : Value → List String → Option Value
  | v, [] => some v
  | v, current :: rest =>
    match pyIndex v current with
    | some inner => lookupChain inner rest
    | none => none

theorem lookupD_dictSet_self (e : List (String × Value)) (key : String) (v : Value) :
    lookupD (dictSet e key v) key = some v := by
  induction e with
  | nil => simp [dictSet, lookupD]
  | cons hd tl ih =>
    obtain ⟨k0, v0⟩ := hd
    by_cases h : k0 == key
    · simp [dictSet, lookupD, h]
    · simp only [dictSet, h]
      simp only [lookupD, h, Bool.false_eq_true, if_false, ih]

theorem lookupD_dictSet_other (e : List (String × Value)) (key k : String) (v : Value)
    (hk : k ≠ key) : lookupD (dictSet e key v) k = lookupD e k := by
  induction e with
  | nil =>
    simp only [dictSet, lookupD]
    have : (key == k) = false := by
      simp [BEq.beq]
      exact fun h => hk h.symm
    simp [this]
  | cons hd tl ih =>
    obtain ⟨k0, v0⟩ := hd
    by_cases h : k0 == key
    · have hk0 : k0 = key := by simpa [BEq.beq] using h
      subst hk0
      have : (k0 == k) = false := by
        simp [BEq.beq]
        exact fun h2 => hk h2.symm
      simp [dictSet, lookupD, this]
    · simp only [dictSet, h, Bool.false_eq_true, if_false]
      by_cases h2 : k0 == k
      · simp [lookupD, h2]
      · simp [lookupD, h2, ih]

theorem keys_dictSet (e : List (String × Value)) (key : String) (v : Value) (k : String) :
    k ∈ (dictSet e key v).map Prod.fst ↔ k ∈ e.map Prod.fst ∨ k = key := by
  induction e with
  | nil => simp [dictSet]
  | cons hd tl ih =>
    obtain ⟨k0, v0⟩ := hd
    by_cases h : k0 == key
    · have hk0 : k0 = key := by simpa [BEq.beq] using h
      subst hk0
      simp only [dictSet, h, if_true, List.map_cons, List.mem_cons]
      tauto
    · simp only [dictSet, h, Bool.false_eq_true, if_false, List.map_cons, List.mem_cons, ih]
      tauto

theorem dictSet_idem (e : List (String × Value)) (key : String) (v : Value) :
    dictSet (dictSet e key v) key v = dictSet e key v := by
  induction e with
  | nil => simp [dictSet]
  | cons hd tl ih =>
    obtain ⟨k0, v0⟩ := hd
    by_cases h : k0 == key
    · simp [dictSet, h]
    · simp [dictSet, h, ih]

/-- C8: `sanitize_embed` maps `'type'` to `"rich"`, leaves every other key
untouched, adds or removes no key besides `'type'`, and is idempotent. -/
theorem sanitize_embed_frame (embed : List (String × Value)) :
    lookupD (sanitize_embed embed) "type" = some (.vstr "rich")
    ∧ (∀ k : String, k ≠ "type" →
        lookupD (sanitize_embed embed) k = lookupD embed k)
    ∧ (∀ k : String, k ∈ (sanitize_embed embed).map Prod.fst ↔
        k ∈ embed.map Prod.fst ∨ k = "type")
    ∧ sanitize_embed (sanitize_embed embed) = sanitize_embed embed := by
  refine ⟨lookupD_dictSet_self _ _ _, ?_, ?_, dictSet_idem _ _ _⟩
  · intro k hk
    exact lookupD_dictSet_other _ _ _ _ hk
  · intro k
    exact keys_dictSet _ _ _ _

/-- Witness for C8 at a concrete embed. -/
theorem sanitize_embed_frame_witness :
    lookupD (sanitize_embed [("title", Value.vstr "a")]) "title"
      = lookupD [("title", Value.vstr "a")] "title" :=
  (sanitize_embed_frame [("title", Value.vstr "a")]).2.1 "title" (by decide)

/-- C10: `path_exists` returns `true` exactly when chaining the lookups
succeeds; the empty component list yields `true` on any value, and the
string form first splits on dots. -/
theorem path_exists_spec (v : Value) (components : List String) (s : String) :
    (path_exists v components = true ↔ (lookupChain v components).isSome = true)
    ∧ path_exists v [] = true
    ∧ path_exists_str v s = path_exists v (pySplit s '.') := by
  refine ⟨?_, rfl, rfl⟩
  induction components generalizing v with
  | nil => simp [path_exists, lookupChain]
  | cons c rest ih =>
    simp only [path_exists, lookupChain]
    cases pyIndex v c with
    | none => simp
    | some inner => exact ih inner

/-- Witness for C10 at a concrete value and path. -/
theorem path_exists_spec_witness :
    path_exists (Value.vdict [("footer", Value.vdict [("icon_url", Value.vstr "u")])])
      ["footer", "icon_url"] = true :=
  ((path_exists_spec (Value.vdict [("footer", Value.vdict [("icon_url", Value.vstr "u")])])
      ["footer", "icon_url"] "").1).mpr (by rfl)

/-! ## litecord/images.py -/

/-- Python exceptions relevant to `parse_data_uri`: `ValueError` (of which
`binascii.Error`, raised by `base64.b64decode`, is a subclass) and the
repository's `ImageError` (a direct `Exception` subclass). -/
inductive PyErr where
  | valueError : PyErr
  | imageError : String → PyErr

/-- Tuple unpacking `a, b = s.split(sep)`: succeeds exactly when the split
yields two parts, otherwise Python raises ValueError. -/
def split2 (s : String) (sep : Char) : Except PyErr (String × String) :=
  match pySplit s sep with
  | [a, b] => .ok (a, b)
  | _ => .error .valueError

/-- Position of a character in the standard base64 alphabet, if any. -/
def b64Val (c : Char) : Option Nat :=
  if 'A' ≤ c ∧ c ≤ 'Z' then some (c.toNat - 65)
  else if 'a' ≤ c ∧ c ≤ 'z' then some (c.toNat - 97 + 26)
  else if '0' ≤ c ∧ c ≤ '9' then some (c.toNat - 48 + 52)
  else if c = '+' then some 62
  else if c = '/' then some 63
  else none

/-- Regroup base64 sextets into bytes: each full group of four sextets
yields three bytes, a final group of two or three yields one or two. -/
def b64Bytes : List Nat → List Nat
  | a :: b :: c :: d :: rest =>
    (a * 4 + b / 16) :: ((b % 16) * 16 + c / 4) :: ((c % 4) * 64 + d) :: b64Bytes rest
  | [a, b] => [a * 4 + b / 16]
  | [a, b, c] => [a * 4 + b / 16, (b % 16) * 16 + c / 4]
  | _ => []

/-- Model of `base64.b64decode` as called by `to_raw` (default, non-strict
validation): characters outside the alphabet are discarded, the padded
length must be a multiple of four with at most two trailing `=` characters,
and violations raise `binascii.Error`, a ValueError subclass. -/
def b64decode (s : String) : Except PyErr (List Nat) :=
  let kept := s.data.filter (fun c => (b64Val c).isSome || c == '=')
  let dataChars := kept.takeWhile (fun c => c != '=')
  let padChars := kept.dropWhile (fun c => c != '=')
  if padChars.all (fun c => c == '=')
      ∧ (dataChars.length + padChars.length) % 4 = 0
      ∧ padChars.length ≤ 2
  then .ok (b64Bytes (dataChars.filterMap b64Val))
  else .error .valueError

/-- Embedding of `to_raw`: base64 data is decoded (decode failures raise the
ValueError subclass `binascii.Error`); any other data type yields None. -/
def to_raw (data_type data : String) : Except PyErr (Option (List Nat)) :=
  if data_type == "base64" then
    match b64decode data with
    | .ok bs => .ok (some bs)
    | .error e => .error e
  else .ok none

/-- The try-block body of `parse_data_uri`: three two-way splits, then
`to_raw`; a None raw result raises ImageError directly (which the
ValueError handler does not catch). -/
def parse_data_uri_body (string : String) : Except PyErr (String × List Nat) :=
  match split2 string ';' with
  | .error e => .error e
  | .ok (header, headered_data) =>
    match split2 header ':' with
    | .error e => .error e
    | .ok (_, given_mime) =>
      match split2 headered_data ',' with
      | .error e => .error e
      | .ok (data_type, data) =>
        match to_raw data_type data with
        | .error e => .error e
        | .ok none => .error (.imageError "Unknown data header")
        | .ok (some raw_data) => .ok (given_mime, raw_data)

/-- Embedding of `parse_data_uri`: its `except ValueError` handler
re-raises as `ImageError('data URI invalid syntax')`. -/
def parse_data_uri (string : String) : Except PyErr (String × List Nat) :=
  match parse_data_uri_body string with
  | .error .valueError => .error (.imageError "data URI invalid syntax")
  | .error (.imageError m) => .error (.imageError m)
  | .ok p => .ok p

theorem split2_ok (s : String) (sep : Char) (a b : String)
    (h : split2 s sep = .ok (a, b)) :
    pySplit s sep = [a, b] := by
  unfold split2 at h
  cases hs : pySplit s sep with
  | nil => rw [hs] at h; simp at h
  | cons x xs =>
    cases xs with
    | nil => rw [hs] at h; simp at h
    | cons y ys =>
      cases ys with
      | nil =>
        rw [hs] at h
        simp only [Except.ok.injEq, Prod.mk.injEq] at h
        rw [h.1, h.2]
      | cons z zs => rw [hs] at h; simp at h

theorem to_raw_ok_some (dt dat : String) (raw : List Nat)
    (h : to_raw dt dat = .ok (some raw)) :
    dt = "base64" ∧ b64decode dat = .ok raw := by
  unfold to_raw at h
  by_cases hdt : (dt == "base64") = true
  · refine ⟨by simpa using hdt, ?_⟩
    rw [if_pos hdt] at h
    cases hb : b64decode dat with
    | ok bs =>
      rw [hb] at h
      simp only [Except.ok.injEq, Option.some.injEq] at h
      rw [h]
    | error e => rw [hb] at h; simp at h
  · rw [if_neg hdt] at h
    simp at h

/-- C9: `parse_data_uri` either returns the declared mime type paired with
the base64 decoding of the data part, or fails with `ImageError`; split
arity errors, invalid base64 and unknown data headers all surface as
`ImageError`, never as an escaping ValueError. -/
theorem parse_data_uri_spec (s : String) :
    (∀ e, parse_data_uri s = .error e → ∃ msg, e = PyErr.imageError msg)
    ∧ (∀ mime raw, parse_data_uri s = .ok (mime, raw) →
        ∃ header hdata pre dat,
          pySplit s ';' = [header, hdata]
          ∧ pySplit header ':' = [pre, mime]
          ∧ pySplit hdata ',' = ["base64", dat]
          ∧ b64decode dat = .ok raw) := by
  constructor
  · intro e he
    unfold parse_data_uri at he
    cases hb : parse_data_uri_body s with
    | ok p => rw [hb] at he; simp at he
    | error pe =>
      cases pe with
      | valueError =>
        rw [hb] at he
        simp only [Except.error.injEq] at he
        exact ⟨"data URI invalid syntax", he.symm⟩
      | imageError m =>
        rw [hb] at he
        simp only [Except.error.injEq] at he
        exact ⟨m, he.symm⟩
  · intro mime raw hok
    unfold parse_data_uri at hok
    cases hb : parse_data_uri_body s with
    | error pe => cases pe <;> rw [hb] at hok <;> simp at hok
    | ok p =>
      rw [hb] at hok
      simp only [Except.ok.injEq] at hok
      subst hok
      unfold parse_data_uri_body at hb
      cases h1 : split2 s ';' with
      | error e => rw [h1] at hb; simp at hb
      | ok pr1 =>
        obtain ⟨header, hdata⟩ := pr1
        rw [h1] at hb
        simp only at hb
        cases h2 : split2 header ':' with
        | error e => rw [h2] at hb; simp at hb
        | ok pr2 =>
          obtain ⟨pre, given_mime⟩ := pr2
          rw [h2] at hb
          simp only at hb
          cases h3 : split2 hdata ',' with
          | error e => rw [h3] at hb; simp at hb
          | ok pr3 =>
            obtain ⟨data_type, dat⟩ := pr3
            rw [h3] at hb
            simp only at hb
            cases h4 : to_raw data_type dat with
            | error e => rw [h4] at hb; simp at hb
            | ok o =>
              cases o with
              | none => rw [h4] at hb; simp at hb
              | some bs =>
                rw [h4] at hb
                simp only [Except.ok.injEq, Prod.mk.injEq] at hb
                obtain ⟨hm, hr⟩ := hb
                obtain ⟨hdt, hdec⟩ := to_raw_ok_some _ _ _ h4
                subst hdt
                refine ⟨header, hdata, pre, dat,
                  split2_ok _ _ _ _ h1, ?_, split2_ok _ _ _ _ h3, ?_⟩
                · rw [← hm]; exact split2_ok _ _ _ _ h2
                · rw [← hr]; exact hdec

/-- Witness for C9: a syntactically malformed data URI surfaces as
ImageError. -/
theorem parse_data_uri_spec_witness :
    ∃ msg, PyErr.imageError "data URI invalid syntax" = PyErr.imageError msg :=
  (parse_data_uri_spec "not a data uri").1
    (PyErr.imageError "data URI invalid syntax") (by rfl)

/-! ## litecord/blueprints/users.py — discriminator reroll and username patch

The database is external state: `free d` abstracts "no row currently holds
this (username, discriminator) pair", the availability check performed by
both loop branches of `_try_reroll` (the SELECT probe when a preferred
username is given, the UniqueViolationError of the UPDATE otherwise; failed
attempts leave the row unchanged, so the check is stable across the loop).
`draws i` is the value of `random.randint(1, 9999)` on attempt `i`. -/

/-- The `for _ in range(10)` loop of `_try_reroll`, with `i` the index of
the current attempt and `fuel` the remaining attempts. -/
def tryRerollFrom (draws : Nat → Nat) (free : Nat → Bool) : Nat → Nat → Option String
  | _, 0 => none
  | i, fuel + 1 =>
    let reroll := draws i
    if free reroll then some (toString reroll)
    else tryRerollFrom draws free (i + 1) fuel

/-- Embedding of `_try_reroll`: ten attempts, then give up with None. -/
def tryReroll (draws : Nat → Nat) (free : Nat → Bool) : Option String :=
  tryRerollFrom draws free 0 10

theorem tryRerollFrom_shape (draws : Nat → Nat) (free : Nat → Bool)
    (lo hi : Nat) (fuel : Nat) (i : Nat)
    (h : ∀ j, lo ≤ draws j ∧ draws j ≤ hi) :
    tryRerollFrom draws free i fuel = none
    ∨ ∃ n, lo ≤ n ∧ n ≤ hi ∧ tryRerollFrom draws free i fuel = some (toString n) := by
  induction fuel generalizing i with
  | zero => left; rfl
  | succ fuel ih =>
    by_cases hf : free (draws i) = true
    · right
      exact ⟨draws i, (h i).1, (h i).2, by simp [tryRerollFrom, hf]⟩
    · have : tryRerollFrom draws free i (fuel + 1)
          = tryRerollFrom draws free (i + 1) fuel := by
        simp [tryRerollFrom, hf]
      rw [this]
      exact ih (i + 1)

theorem tryRerollFrom_depends_on_first (draws draws2 : Nat → Nat) (free : Nat → Bool)
    (i fuel : Nat) (h : ∀ j, j < i + fuel → draws j = draws2 j) :
    tryRerollFrom draws free i fuel = tryRerollFrom draws2 free i fuel := by
  induction fuel generalizing i with
  | zero => rfl
  | succ fuel ih =>
    have hi : draws i = draws2 i := h i (by omega)
    simp only [tryRerollFrom, hi]
    by_cases hf : free (draws2 i) = true
    · simp [hf]
    · simp only [hf, Bool.false_eq_true, if_false]
      exact ih (i + 1) (fun j hj => h j (by omega))

/-- C5: `_try_reroll` makes at most ten attempts — its outcome depends only
on the first ten draws — and always returns a definite outcome: None, or a
discriminator string rendering an integer in 1..9999 (the `randint(1, 9999)`
range). -/
theorem tryReroll_spec (draws : Nat → Nat) (free : Nat → Bool)
    (h : ∀ j, 1 ≤ draws j ∧ draws j ≤ 9999) :
    (tryReroll draws free = none
      ∨ ∃ n, 1 ≤ n ∧ n ≤ 9999 ∧ tryReroll draws free = some (toString n))
    ∧ (∀ draws2 : Nat → Nat, (∀ j, j < 10 → draws j = draws2 j) →
        tryReroll draws free = tryReroll draws2 free) := by
  constructor
  · exact tryRerollFrom_shape draws free 1 9999 10 0 h
  · intro draws2 h2
    exact tryRerollFrom_depends_on_first draws draws2 free 0 10 h2

/-- Witness for C5: with every draw equal to 7 and every discriminator
free, the reroll succeeds with "7". -/
theorem tryReroll_spec_witness :
    tryReroll (fun _ => 7) (fun _ => true) = none
    ∨ ∃ n, 1 ≤ n ∧ n ≤ 9999
        ∧ tryReroll (fun _ => 7) (fun _ => true) = some (toString n) :=
  (tryReroll_spec (fun _ => 7) (fun _ => true)
    (fun _ => show 1 ≤ 7 ∧ 7 ≤ 9999 by decide)).1

/-- Outcome of `_try_username_patch`: either a BadRequest error or the
returned discriminator together with the committed user row. -/
structure UserRow where
  username : String
  discriminator : String

/-- Embedding of `_try_username_patch`.  `conflict` says whether the plain
`UPDATE users SET username` raises UniqueViolationError (another user holds
the same (username, discriminator)); on no conflict the function commits
the username and returns the unchanged discriminator fetched back from the
row; on conflict it rerolls with the new username as preferred name, turns
a failed reroll into `BadRequest('Unable to change username')`, and
otherwise commits username and rerolled discriminator together. -/
def tryUsernamePatch (conflict : Bool) (draws : Nat → Nat) (free : Nat → Bool)
    (new_username : String) (row : UserRow) : Except String (String × UserRow) :=
  if conflict then
    match tryReroll draws free with
    | none => .error "Unable to change username"
    | some discrim =>
      .ok (discrim, { username := new_username, discriminator := discrim })
  else
    .ok (row.discriminator, { username := new_username,
                              discriminator := row.discriminator })

/-- C6: on a uniqueness conflict, a failed bounded reroll surfaces as the
BadRequest 'Unable to change username' (no retry), and a successful reroll
commits the new username together with the rerolled discriminator and
returns that discriminator. -/
theorem tryUsernamePatch_spec (draws : Nat → Nat) (free : Nat → Bool)
    (new_username : String) (row : UserRow) :
    (tryReroll draws free = none →
      tryUsernamePatch true draws free new_username row
        = .error "Unable to change username")
    ∧ (∀ discrim, tryReroll draws free = some discrim →
        tryUsernamePatch true draws free new_username row
          = .ok (discrim, { username := new_username,
                            discriminator := discrim })) := by
  constructor
  · intro hn
    simp [tryUsernamePatch, hn]
  · intro discrim hs
    simp [tryUsernamePatch, hs]

/-- Witness for C6: with no free discriminator the patch fails with the
user-facing conflict error. -/
theorem tryUsernamePatch_spec_witness :
    tryUsernamePatch true (fun _ => 7) (fun _ => false) "luna" ⟨"old", "0001"⟩
      = .error "Unable to change username" :=
  (tryUsernamePatch_spec (fun _ => 7) (fun _ => false) "luna" ⟨"old", "0001"⟩).1 (by rfl)

/-! ## litecord/gateway/schemas.py — identify validation

`validate` builds a `LitecordValidator` (a Cerberus validator) over the
given schema, raises `DecodeError` for every document the schema does not
accept, and returns the normalized document otherwise; `IDENTIFY_SCHEMA`
declares no defaults or coercions, so normalization is the identity.  The
embedding below renders Cerberus acceptance for `IDENTIFY_SCHEMA` exactly
as written in the source: `op` is a required number, `s` an optional
number, `d` an (optional, as no `required` flag is set) dict whose schema
requires a string `token` and leaves `compress`, `large_threshold`,
`shard` and `presence` optional; unknown keys are rejected (the Cerberus
default) and non-dict documents fail validation. -/

def isStr : Value → Bool
  | .vstr _ => true
  | _ => false

def isNum : Value → Bool
  | .vnum _ => true
  | _ => false

def isBool : Value → Bool
  | .vbool _ => true
  | _ => false

def isList : Value → Bool
  | .vlist _ => true
  | _ => false

def isDict : Value → Bool
  | .vdict _ => true
  | _ => false

/-- Cerberus acceptance of one schema field: a present value must satisfy
the field check, an absent one is allowed only when not required. -/
def fieldOk (check : Value → Bool) (required : Bool)
    (fs : List (String × Value)) (key : String) : Bool :=
  match lookupD fs key with
  | some v => check v
  | none => !required

/-- Cerberus default `allow_unknown = False`: every document key must be
declared by the schema. -/
def keysAllowed (fs : List (String × Value)) (ks : List String) : Bool :=
  fs.all (fun kv => ks.contains kv.1)

/-- Acceptance for the `d` sub-schema of `IDENTIFY_SCHEMA`. -/
def dSchemaOk (v : Value) : Bool :=
  match v with
  | .vdict dfs =>
    keysAllowed dfs ["token", "compress", "large_threshold", "shard", "presence"]
    && fieldOk isStr true dfs "token"
    && fieldOk isBool false dfs "compress"
    && fieldOk isNum false dfs "large_threshold"
    && fieldOk isList false dfs "shard"
    && fieldOk isDict false dfs "presence"
  | _ => false

/-- Acceptance for `IDENTIFY_SCHEMA` (which merges `BASE`). -/
def identifySchemaOk (v : Value) : Bool :=
  match v with
  | .vdict fs =>
    keysAllowed fs ["op", "s", "d"]
    && fieldOk isNum true fs "op"
    && fieldOk isNum false fs "s"
    && fieldOk dSchemaOk false fs "d"
  | _ => false

/-- Embedding of `validate(reqjson, IDENTIFY_SCHEMA)`: `none` is the
raised DecodeError, `some` the returned (identity-normalized) document. -/
def validateIdentify (v : Value) : Option Value :=
  if identifySchemaOk v then some v else none

/-- An identify payload with a token but no shard declaration. -/
def identifyNoShardDoc : Value :=
  .vdict [("op", .vnum 2), ("d", .vdict [("token", .vstr "tok")])]

/-- Counterexample to C7: the schema marks `shard` (and `d` itself) as not
required, so a payload with a credential but no declared shard index/count
is accepted by `validate`, not rejected. -/
theorem identify_shard_not_required :
    validateIdentify identifyNoShardDoc = some identifyNoShardDoc
    ∧ path_exists identifyNoShardDoc ["d", "shard"] = false :=
  ⟨rfl, rfl⟩

theorem fieldOk_eq_of_some (check : Value → Bool) (req : Bool)
    (fs : List (String × Value)) (key : String) (v : Value)
    (h : lookupD fs key = some v) : fieldOk check req fs key = check v := by
  unfold fieldOk
  rw [h]

theorem fieldOk_eq_of_none (check : Value → Bool) (req : Bool)
    (fs : List (String × Value)) (key : String)
    (h : lookupD fs key = none) : fieldOk check req fs key = !req := by
  unfold fieldOk
  rw [h]

/-- C7 amended: every accepted identify payload is returned unnormalized
and carries a required numeric `op`; whenever its `d` field is present it
is a dict carrying a required string `token` — and a payload whose `d`
lacks a token is rejected.  The shard declaration is optional. -/
theorem validateIdentify_spec (fs : List (String × Value)) :
    (∀ w, validateIdentify (.vdict fs) = some w →
      w = .vdict fs
      ∧ (∃ n, lookupD fs "op" = some (.vnum n))
      ∧ (∀ dv, lookupD fs "d" = some dv →
          ∃ dfs, dv = .vdict dfs ∧ ∃ t, lookupD dfs "token" = some (.vstr t)))
    ∧ (∀ dfs, lookupD fs "d" = some (.vdict dfs) →
        lookupD dfs "token" = none →
        validateIdentify (.vdict fs) = none) := by
  constructor
  · intro w hw
    unfold validateIdentify at hw
    by_cases hok : identifySchemaOk (.vdict fs) = true
    · rw [if_pos hok] at hw
      refine ⟨(Option.some.injEq _ _ ▸ hw).symm, ?_, ?_⟩
      · unfold identifySchemaOk at hok
        simp only [Bool.and_eq_true] at hok
        obtain ⟨⟨⟨_, hop⟩, _⟩, _⟩ := hok
        cases hv : lookupD fs "op" with
        | none => rw [fieldOk_eq_of_none _ _ _ _ hv] at hop; simp at hop
        | some v =>
          rw [fieldOk_eq_of_some _ _ _ _ _ hv] at hop
          cases v <;> simp [isNum] at hop ⊢
      · intro dv hdv
        unfold identifySchemaOk at hok
        simp only [Bool.and_eq_true] at hok
        obtain ⟨_, hd⟩ := hok
        rw [fieldOk_eq_of_some _ _ _ _ _ hdv] at hd
        cases dv with
        | vdict dfs =>
          refine ⟨dfs, rfl, ?_⟩
          unfold dSchemaOk at hd
          simp only [Bool.and_eq_true] at hd
          obtain ⟨⟨⟨⟨⟨_, htok⟩, _⟩, _⟩, _⟩, _⟩ := hd
          cases hv : lookupD dfs "token" with
          | none => rw [fieldOk_eq_of_none _ _ _ _ hv] at htok; simp at htok
          | some tv =>
            rw [fieldOk_eq_of_some _ _ _ _ _ hv] at htok
            cases tv <;> simp [isStr] at htok ⊢
        | vnull => simp [dSchemaOk] at hd
        | vbool b => simp [dSchemaOk] at hd
        | vnum n => simp [dSchemaOk] at hd
        | vstr s => simp [dSchemaOk] at hd
        | vlist xs => simp [dSchemaOk] at hd
    · rw [if_neg hok] at hw
      simp at hw
  · intro dfs hd htok
    unfold validateIdentify
    have hds : dSchemaOk (.vdict dfs) = false := by
      simp only [dSchemaOk]
      rw [fieldOk_eq_of_none isStr true dfs "token" htok]
      simp
    have : identifySchemaOk (.vdict fs) = false := by
      simp only [identifySchemaOk]
      rw [fieldOk_eq_of_some dSchemaOk false fs "d" _ hd, hds]
      simp
    rw [this]
    simp

/-- Witness for C7 amended: the accepted no-shard payload indeed carries a
numeric op. -/
theorem validateIdentify_spec_witness :
    ∃ n, lookupD [("op", Value.vnum 2),
      ("d", Value.vdict [("token", Value.vstr "tok")])] "op"
        = some (Value.vnum n) :=
  ((validateIdentify_spec [("op", Value.vnum 2),
      ("d", Value.vdict [("token", Value.vstr "tok")])]).1
    (Value.vdict [("op", Value.vnum 2),
      ("d", Value.vdict [("token", Value.vstr "tok")])]) (by rfl)).2.1

/-! ## The dispatch engine

The dispatcher implementations (the `litecord.pubsub` submodules re-exported
by `litecord/pubsub/__init__.py`) are not part of the sources here, only
their callers are; the engine below is therefore modelled from the spec
(§3, §4.1): topics are (kind, id) pairs holding subscriber session sets,
and publishing stamps each delivered event with the receiving session's
sequence counter, which starts at 0 and increments once per delivered
event. -/

/-- Modelled from the spec: the closed set of topic kinds (§3). -/
inductive TopicKind where
  | guild : TopicKind
  | channel : TopicKind
  | user : TopicKind
  | friend : TopicKind
  | lazyGuildRange : TopicKind
deriving DecidableEq

/-- Event payloads, kept opaque except for the fields the claims inspect
(the guild id of a GUILD_DELETE, the guild id and user object reference of
a GUILD_MEMBER_REMOVE). -/
inductive Payload where
  | empty : Payload
  | guildDelete (guild_id : Nat) : Payload
  | memberRemove (guild_id : Nat) (user : Nat) : Payload
  | raw (tag : String) : Payload
deriving DecidableEq

/-- One delivered event as seen by a session: name, payload and the
per-session sequence number stamped at delivery. -/
structure Delivery where
  name : String
  payload : Payload
  stamp : Nat
deriving DecidableEq

/-- Modelled from the spec: a live session (§3) — id, owning user,
sequence counter and the ordered list of deliveries it has received. -/
structure Session where
  sid : Nat
  userId : Nat
  seq : Nat
  inbox : List Delivery
deriving DecidableEq

/-- A subscription entry of the topic registry: session `sid` subscribed
to topic (kind, topicId). -/
structure Sub where
  kind : TopicKind
  topicId : Nat
  sid : Nat
deriving DecidableEq

/-- Modelled from the spec: the engine state — session registry plus topic
registry. -/
structure EngineState where
  sessions : List Session
  subs : List Sub
deriving DecidableEq

/-- Whether session `sid` is subscribed to topic (kind, tid). -/
def subscribed (subs : List Sub) (kind : TopicKind) (tid sid : Nat) : Bool :=
  decide (Sub.mk kind tid sid ∈ subs)

/-- Modelled from the spec: enqueue one event on a session, stamping the
current sequence number and incrementing the counter (§2 item 3). -/
def deliver (ev : String) (pl : Payload) (s : Session) : Session :=
  { s with seq := s.seq + 1, inbox := s.inbox ++ [⟨ev, pl, s.seq⟩] }

/-- Deliver an event to every session satisfying `p`, leaving the topic
registry untouched. -/
def deliverTo (p : Session → Bool) (ev : String) (pl : Payload)
    (st : EngineState) : EngineState :=
  { st with sessions := st.sessions.map (fun s => if p s then deliver ev pl s else s) }

/-- Modelled from the spec: `publish(topicKind, topicId, eventName,
payload)` — enqueue on every subscriber of the topic (§4.1). -/
def publish (kind : TopicKind) (tid : Nat) (ev : String) (pl : Payload)
    (st : EngineState) : EngineState :=
  deliverTo (fun s => subscribed st.subs kind tid s.sid) ev pl st

/-- Modelled from the spec: `publishMany` / `dispatch_many` — deliver to
every session subscribed to at least one of the given ids, once each
(§4.1). -/
def dispatch_many (kind : TopicKind) (tids : List Nat) (ev : String)
    (pl : Payload) (st : EngineState) : EngineState :=
  deliverTo (fun s => tids.any (fun tid => subscribed st.subs kind tid s.sid)) ev pl st

/-- Sequential `publish` calls over a list of topic ids, for comparison
with `dispatch_many`. -/
def seqPublish (kind : TopicKind) (tids : List Nat) (ev : String)
    (pl : Payload) (st : EngineState) : EngineState :=
  tids.foldl (fun acc tid => publish kind tid ev pl acc) st

/-- Modelled from the spec: `publishToUser` / `dispatch_user` — deliver to
every session owned by the user, regardless of topics (§4.1). -/
def dispatch_user (uid : Nat) (ev : String) (pl : Payload)
    (st : EngineState) : EngineState :=
  deliverTo (fun s => s.userId == uid) ev pl st

/-- Modelled from the spec: `dispatch_user_guild` — deliver to the user's
own sessions that are subscribed to the guild topic. -/
def dispatch_user_guild (uid gid : Nat) (ev : String) (pl : Payload)
    (st : EngineState) : EngineState :=
  deliverTo (fun s => s.userId == uid && subscribed st.subs .guild gid s.sid) ev pl st

/-- Modelled from the spec: `dispatch_guild` — publish on the guild topic
(the subscribers still in the topic's set receive the event). -/
def dispatch_guild (gid : Nat) (ev : String) (pl : Payload)
    (st : EngineState) : EngineState :=
  publish .guild gid ev pl st

/-- Session ids owned by a user. -/
def userSids (st : EngineState) (uid : Nat) : List Nat :=
  (st.sessions.filter (fun s => s.userId == uid)).map Session.sid

/-- Modelled from the spec: `unsub('guild', guild_id, user_id)` as called
by `leave_guild` — remove the user's subscription to the guild topic,
i.e. drop every subscription of the user's sessions to (guild, gid). -/
def unsubUser (kind : TopicKind) (tid uid : Nat) (st : EngineState) : EngineState :=
  let keep : Sub → Bool := fun e =>
    !(decide (e.kind = kind) && decide (e.topicId = tid)
      && (userSids st uid).contains e.sid)
  { st with subs := st.subs.filter keep }

/-! ### leave_guild (litecord/blueprints/users.py, lines 236-263)

After deleting the member row the handler dispatches GUILD_DELETE to the
leaving user's sessions, then unsubscribes the user from the guild topic,
then dispatches GUILD_MEMBER_REMOVE (carrying the guild id and the user
object) on the guild topic. -/

/-- State after the first step of `leave_guild`: GUILD_DELETE delivered to
the leaving user's sessions. -/
def leave_guild_st1 (uid gid : Nat) (st : EngineState) : EngineState :=
  dispatch_user_guild uid gid "GUILD_DELETE" (.guildDelete gid) st

/-- State after the second step: the user's subscription to the guild
topic removed. -/
def leave_guild_st2 (uid gid : Nat) (st : EngineState) : EngineState :=
  unsubUser .guild gid uid (leave_guild_st1 uid gid st)

/-- Embedding of the full `leave_guild` dispatch flow. -/
def leave_guild (uid gid : Nat) (st : EngineState) : EngineState :=
  dispatch_guild gid "GUILD_MEMBER_REMOVE" (.memberRemove gid uid)
    (leave_guild_st2 uid gid st)

/-- Every state the flow passes through, in order. -/
def leave_guild_states (uid gid : Nat) (st : EngineState) : List EngineState :=
  [st, leave_guild_st1 uid gid st, leave_guild_st2 uid gid st, leave_guild uid gid st]

/-! ### Dispatch calls issued by the user-facing PATCH handlers -/

/-- One call into the dispatcher as issued by a REST handler. -/
inductive DispatchCall where
  | user (uid : Nat) (ev : String) (pl : Payload) : DispatchCall
  | many (kind : TopicKind) (ids : List Nat) (ev : String) (pl : Payload) : DispatchCall
deriving DecidableEq

def isManyCall : DispatchCall → Bool
  | .many _ _ _ _ => true
  | _ => false

/-- Embedding of the dispatch sequence of `patch_current_settings` (source
lines 383-397): after committing the settings rows it calls
`dispatch_user(user_id, 'USER_SETTINGS_UPDATE', settings)` and returns. -/
def patch_current_settings_calls (uid : Nat) (settings : Payload) : List DispatchCall :=
  [.user uid "USER_SETTINGS_UPDATE" settings]

/-- Embedding of the dispatch sequence of `patch_me` (source lines
193-207): `dispatch_user(user_id, 'USER_UPDATE', user)`, then
`dispatch_many('guild', guild_ids, 'USER_UPDATE', public_user)`, then
`dispatch_many('friend', friend_ids, 'USER_UPDATE', public_user)`. -/
def patch_me_calls (uid : Nat) (user_obj public_user : Payload)
    (guild_ids friend_ids : List Nat) : List DispatchCall :=
  [.user uid "USER_UPDATE" user_obj,
   .many .guild guild_ids "USER_UPDATE" public_user,
   .many .friend friend_ids "USER_UPDATE" public_user]

/-- Interpret a list of dispatcher calls against the engine. -/
def runCalls (calls : List DispatchCall) (st : EngineState) : EngineState :=
  calls.foldl
    (fun acc c =>
      match c with
      | .user uid ev pl => dispatch_user uid ev pl acc
      | .many kind ids ev pl => dispatch_many kind ids ev pl acc)
    st

/-! ### Engine lemmas -/

theorem contains_iff_mem (l : List Nat) (a : Nat) : l.contains a = true ↔ a ∈ l :=
  List.elem_iff

theorem subscribed_iff (subs : List Sub) (kind : TopicKind) (tid sid : Nat) :
    subscribed subs kind tid sid = true ↔ Sub.mk kind tid sid ∈ subs := by
  simp [subscribed]

theorem deliver_inbox_length (ev : String) (pl : Payload) (s : Session) :
    (deliver ev pl s).inbox.length = s.inbox.length + 1 := by
  simp [deliver]

theorem ite_deliver_userId (c : Bool) (ev : String) (pl : Payload) (s : Session) :
    (if c then deliver ev pl s else s).userId = s.userId := by
  cases c <;> rfl

theorem ite_deliver_sid (c : Bool) (ev : String) (pl : Payload) (s : Session) :
    (if c then deliver ev pl s else s).sid = s.sid := by
  cases c <;> rfl

theorem ite_deliver_inbox_mono (c : Bool) (ev : String) (pl : Payload) (s : Session)
    (d : Delivery) (h : d ∈ s.inbox) : d ∈ (if c then deliver ev pl s else s).inbox := by
  cases c with
  | false => exact h
  | true => simp [deliver]; left; exact h

theorem deliver_self_mem (ev : String) (pl : Payload) (s : Session) :
    (⟨ev, pl, s.seq⟩ : Delivery) ∈ (deliver ev pl s).inbox := by
  simp [deliver]

/-- C3: `dispatch_many` delivers exactly one event to each session
subscribed to at least one of the given ids (and none to others), whereas
sequential `publish` calls would deliver once per subscribed id; neither
touches the topic registry.  This is the dedup contract of `publishMany`. -/
theorem dispatch_many_dedup (kind : TopicKind) (tids : List Nat) (ev : String)
    (pl : Payload) (st : EngineState) :
    (dispatch_many kind tids ev pl st).sessions.map (fun s => s.inbox.length)
      = st.sessions.map (fun s => s.inbox.length
          + (if tids.any (fun tid => subscribed st.subs kind tid s.sid) then 1 else 0))
    ∧ (seqPublish kind tids ev pl st).sessions.map (fun s => s.inbox.length)
      = st.sessions.map (fun s => s.inbox.length
          + tids.countP (fun tid => subscribed st.subs kind tid s.sid))
    ∧ (dispatch_many kind tids ev pl st).subs = st.subs
    ∧ (seqPublish kind tids ev pl st).subs = st.subs := by
  have hseq : ∀ tids2 : List Nat, ∀ st2 : EngineState,
      (seqPublish kind tids2 ev pl st2).sessions.map (fun s => s.inbox.length)
        = st2.sessions.map (fun s => s.inbox.length
            + tids2.countP (fun tid => subscribed st2.subs kind tid s.sid)) := by
    intro tids2
    induction tids2 with
    | nil =>
      intro st2
      simp [seqPublish]
    | cons tid rest ih =>
      intro st2
      have h1 : seqPublish kind (tid :: rest) ev pl st2
          = seqPublish kind rest ev pl (publish kind tid ev pl st2) := rfl
      rw [h1, ih (publish kind tid ev pl st2)]
      simp only [publish, deliverTo, List.map_map]
      apply List.map_congr_left
      intro s hs
      simp only [Function.comp_apply, List.countP_cons]
      by_cases hp : subscribed st2.subs kind tid s.sid = true
      · rw [if_pos hp, hp]
        rw [deliver_inbox_length]
        have hsid : (deliver ev pl s).sid = s.sid := rfl
        rw [hsid]
        simp only [if_true]
        omega
      · rw [if_neg hp]
        simp only [Bool.not_eq_true] at hp
        rw [hp]
        simp only [Bool.false_eq_true, if_false]
        omega
  have hsubs : ∀ tids2 : List Nat, ∀ st2 : EngineState,
      (seqPublish kind tids2 ev pl st2).subs = st2.subs := by
    intro tids2
    induction tids2 with
    | nil => intro st2; rfl
    | cons tid rest ih =>
      intro st2
      exact (ih (publish kind tid ev pl st2)).trans rfl
  refine ⟨?_, hseq tids st, rfl, hsubs tids st⟩
  simp only [dispatch_many, deliverTo, List.map_map]
  apply List.map_congr_left
  intro s hs
  simp only [Function.comp_apply]
  by_cases hp : (tids.any fun tid => subscribed st.subs kind tid s.sid) = true
  · rw [if_pos hp, hp, deliver_inbox_length, if_pos rfl]
  · rw [if_neg hp]
    simp only [Bool.not_eq_true] at hp
    rw [hp]
    simp

/-! ### Sequence-number invariant (C4) -/

/-- Any sequence of engine operations, driving all publish entry points and
unsubscription. -/
inductive EngineOp where
  | pub (kind : TopicKind) (tid : Nat) (ev : String) (pl : Payload) : EngineOp
  | pubMany (kind : TopicKind) (tids : List Nat) (ev : String) (pl : Payload) : EngineOp
  | pubUser (uid : Nat) (ev : String) (pl : Payload) : EngineOp
  | pubUserGuild (uid gid : Nat) (ev : String) (pl : Payload) : EngineOp
  | unsubUserOp (kind : TopicKind) (tid uid : Nat) : EngineOp
deriving DecidableEq

def stepOp : EngineOp → EngineState → EngineState
  | .pub kind tid ev pl, st => publish kind tid ev pl st
  | .pubMany kind tids ev pl, st => dispatch_many kind tids ev pl st
  | .pubUser uid ev pl, st => dispatch_user uid ev pl st
  | .pubUserGuild uid gid ev pl, st => dispatch_user_guild uid gid ev pl st
  | .unsubUserOp kind tid uid, st => unsubUser kind tid uid st

def runOps (ops : List EngineOp) (st : EngineState) : EngineState :=
  ops.foldl (fun acc op => stepOp op acc) st

/-- The per-session invariant behind gapless sequence numbers: the counter
equals the number of deliveries and the stamps are 0, 1, 2, …. -/
def seqInv (s : Session) : Prop :=
  s.seq = s.inbox.length ∧ s.inbox.map Delivery.stamp = List.range s.inbox.length

theorem deliver_seqInv (ev : String) (pl : Payload) (s : Session) (h : seqInv s) :
    seqInv (deliver ev pl s) := by
  obtain ⟨h1, h2⟩ := h
  constructor
  · simp [deliver, h1]
  · simp only [deliver, List.map_append, List.length_append, List.map_cons, List.map_nil,
      List.length_cons, List.length_nil]
    rw [h2, h1, List.range_succ]

theorem deliverTo_seqInv (p : Session → Bool) (ev : String) (pl : Payload)
    (st : EngineState) (h : ∀ s ∈ st.sessions, seqInv s) :
    ∀ s2 ∈ (deliverTo p ev pl st).sessions, seqInv s2 := by
  intro s2 hs2
  simp only [deliverTo, List.mem_map] at hs2
  obtain ⟨s, hs, rfl⟩ := hs2
  cases hp : p s with
  | false => simpa [hp] using h s hs
  | true => simpa [hp] using deliver_seqInv ev pl s (h s hs)

theorem stepOp_seqInv (op : EngineOp) (st : EngineState)
    (h : ∀ s ∈ st.sessions, seqInv s) :
    ∀ s2 ∈ (stepOp op st).sessions, seqInv s2 := by
  cases op with
  | pub kind tid ev pl => exact deliverTo_seqInv _ ev pl st h
  | pubMany kind tids ev pl => exact deliverTo_seqInv _ ev pl st h
  | pubUser uid ev pl => exact deliverTo_seqInv _ ev pl st h
  | pubUserGuild uid gid ev pl => exact deliverTo_seqInv _ ev pl st h
  | unsubUserOp kind tid uid => intro s2 hs2; exact h s2 hs2

theorem runOps_seqInv (ops : List EngineOp) :
    ∀ st : EngineState, (∀ s ∈ st.sessions, seqInv s) →
      ∀ s2 ∈ (runOps ops st).sessions, seqInv s2 := by
  induction ops with
  | nil => intro st h s2 hs2; exact h s2 hs2
  | cons op rest ih =>
    intro st h
    exact ih (stepOp op st) (stepOp_seqInv op st h)

/-- C4: starting from fresh sessions (counter 0, empty inbox), after any
sequence of publish operations every session's delivered stamps are exactly
0, 1, …, inbox length - 1 — strictly increasing with no gaps, each stamp
one more than the previous. -/
theorem sequence_numbers_gapless (ops : List EngineOp) (sessions0 : List Session)
    (subs0 : List Sub) (h : ∀ s ∈ sessions0, s.seq = 0 ∧ s.inbox = []) :
    ∀ s2 ∈ (runOps ops ⟨sessions0, subs0⟩).sessions,
      s2.inbox.map Delivery.stamp = List.range s2.inbox.length
      ∧ s2.seq = s2.inbox.length := by
  have h0 : ∀ s ∈ (⟨sessions0, subs0⟩ : EngineState).sessions, seqInv s := by
    intro s hs
    obtain ⟨h1, h2⟩ := h s hs
    exact ⟨by rw [h1, h2]; rfl, by rw [h2]; rfl⟩
  intro s2 hs2
  obtain ⟨h1, h2⟩ := runOps_seqInv ops _ h0 s2 hs2
  exact ⟨h2, h1⟩

/-- Witness for C4: one publish to one subscribed fresh session stamps
sequence number 0. -/
theorem sequence_numbers_gapless_witness :
    (Session.mk 1 10 1 [⟨"E", Payload.empty, 0⟩]).inbox.map Delivery.stamp
      = List.range (Session.mk 1 10 1 [⟨"E", Payload.empty, 0⟩]).inbox.length
    ∧ (Session.mk 1 10 1 [⟨"E", Payload.empty, 0⟩]).seq
      = (Session.mk 1 10 1 [⟨"E", Payload.empty, 0⟩]).inbox.length :=
  sequence_numbers_gapless [EngineOp.pub .guild 5 "E" .empty]
    [⟨1, 10, 0, []⟩] [⟨.guild, 5, 1⟩] (by decide)
    (Session.mk 1 10 1 [⟨"E", Payload.empty, 0⟩]) (by decide)

/-! ### The leave-guild ordered flow (C1) -/

theorem leave_guild_st1_subs (uid gid : Nat) (st : EngineState) :
    (leave_guild_st1 uid gid st).subs = st.subs := rfl

theorem leave_guild_final_subs (uid gid : Nat) (st : EngineState) :
    (leave_guild uid gid st).subs = (leave_guild_st2 uid gid st).subs := rfl

/-- Decompose membership in the final session list: every final session is
the image of an initial session under the two delivery steps. -/
theorem mem_leave_guild_sessions (uid gid : Nat) (st : EngineState) (s2 : Session) :
    s2 ∈ (leave_guild uid gid st).sessions ↔
      ∃ s0 ∈ st.sessions,
        s2 = (fun s : Session =>
            if subscribed (leave_guild_st2 uid gid st).subs .guild gid s.sid
            then deliver "GUILD_MEMBER_REMOVE" (.memberRemove gid uid) s else s)
          ((fun s : Session =>
            if s.userId == uid && subscribed st.subs .guild gid s.sid
            then deliver "GUILD_DELETE" (.guildDelete gid) s else s) s0) := by
  have e3 : (leave_guild uid gid st).sessions
      = (leave_guild_st2 uid gid st).sessions.map (fun s : Session =>
          if subscribed (leave_guild_st2 uid gid st).subs .guild gid s.sid
          then deliver "GUILD_MEMBER_REMOVE" (.memberRemove gid uid) s else s) := rfl
  have e2 : (leave_guild_st2 uid gid st).sessions
      = st.sessions.map (fun s : Session =>
          if s.userId == uid && subscribed st.subs .guild gid s.sid
          then deliver "GUILD_DELETE" (.guildDelete gid) s else s) := rfl
  rw [e3, e2, List.map_map]
  simp only [List.mem_map, Function.comp_apply]
  constructor
  · rintro ⟨s0, hs0, rfl⟩
    exact ⟨s0, hs0, rfl⟩
  · rintro ⟨s0, hs0, rfl⟩
    exact ⟨s0, hs0, rfl⟩

/-- The leaving user's sessions appear in the post-step-1 user-session
index. -/
theorem mem_userSids_st1 (uid gid : Nat) (st : EngineState) (s0 : Session)
    (hs0 : s0 ∈ st.sessions) (huid : s0.userId = uid) :
    s0.sid ∈ userSids (leave_guild_st1 uid gid st) uid := by
  have e1 : (leave_guild_st1 uid gid st).sessions
      = st.sessions.map (fun s : Session =>
          if s.userId == uid && subscribed st.subs .guild gid s.sid
          then deliver "GUILD_DELETE" (.guildDelete gid) s else s) := rfl
  simp only [userSids, List.mem_map, List.mem_filter, e1]
  refine ⟨(fun s : Session =>
      if s.userId == uid && subscribed st.subs .guild gid s.sid
      then deliver "GUILD_DELETE" (.guildDelete gid) s else s) s0, ⟨⟨s0, hs0, rfl⟩, ?_⟩, ?_⟩
  · rw [ite_deliver_userId, huid]
    exact beq_self_eq_true uid
  · rw [ite_deliver_sid]

/-- A session of a different user never appears in the leaving user's
session index, provided session ids determine their owner. -/
theorem notin_userSids_st1 (uid gid : Nat) (st : EngineState) (s0 : Session)
    (hs0 : s0 ∈ st.sessions) (hneq : s0.userId ≠ uid)
    (huniq : ∀ s ∈ st.sessions, ∀ t ∈ st.sessions, s.sid = t.sid → s.userId = t.userId) :
    s0.sid ∉ userSids (leave_guild_st1 uid gid st) uid := by
  intro hin
  have e1 : (leave_guild_st1 uid gid st).sessions
      = st.sessions.map (fun s : Session =>
          if s.userId == uid && subscribed st.subs .guild gid s.sid
          then deliver "GUILD_DELETE" (.guildDelete gid) s else s) := rfl
  simp only [userSids, List.mem_map, List.mem_filter, e1] at hin
  obtain ⟨t1, ⟨⟨t0, ht0, rfl⟩, ht1uid⟩, ht1sid⟩ := hin
  rw [ite_deliver_userId] at ht1uid
  rw [ite_deliver_sid] at ht1sid
  have ht0uid : t0.userId = uid := by
    exact beq_iff_eq.mp ht1uid
  exact hneq ((huniq s0 hs0 t0 ht0 ht1sid.symm).trans ht0uid)

/-- After step 2 the user's sessions are no longer subscribed to the guild
topic. -/
theorem unsubscribed_after_st2 (uid gid : Nat) (st : EngineState) (sid : Nat)
    (hin : sid ∈ userSids (leave_guild_st1 uid gid st) uid) :
    subscribed (leave_guild_st2 uid gid st).subs .guild gid sid = false := by
  have e2 : (leave_guild_st2 uid gid st).subs
      = st.subs.filter (fun e =>
          !(decide (e.kind = TopicKind.guild) && decide (e.topicId = gid)
            && (userSids (leave_guild_st1 uid gid st) uid).contains e.sid)) := rfl
  rw [e2]
  by_contra hne
  have htrue : subscribed
      (st.subs.filter (fun e =>
        !(decide (e.kind = TopicKind.guild) && decide (e.topicId = gid)
          && (userSids (leave_guild_st1 uid gid st) uid).contains e.sid)))
      .guild gid sid = true := by
    cases hb : subscribed
        (st.subs.filter (fun e =>
          !(decide (e.kind = TopicKind.guild) && decide (e.topicId = gid)
            && (userSids (leave_guild_st1 uid gid st) uid).contains e.sid)))
        .guild gid sid with
    | false => exact absurd hb hne
    | true => rfl
  rw [subscribed_iff, List.mem_filter] at htrue
  obtain ⟨_, hkeep⟩ := htrue
  simp only [Bool.not_eq_eq_eq_not, Bool.not_true, Bool.and_eq_false_iff] at hkeep
  rcases hkeep with (h | h)
  · rcases h with (h | h) <;> simp at h
  · rw [← Bool.not_eq_true] at h
    exact h ((contains_iff_mem _ _).mpr hin)

/-- A surviving subscription of another session passes the step-2 filter. -/
theorem still_subscribed_after_st2 (uid gid : Nat) (st : EngineState) (sid : Nat)
    (hnot : sid ∉ userSids (leave_guild_st1 uid gid st) uid)
    (hsub : subscribed st.subs .guild gid sid = true) :
    subscribed (leave_guild_st2 uid gid st).subs .guild gid sid = true := by
  have e2 : (leave_guild_st2 uid gid st).subs
      = st.subs.filter (fun e =>
          !(decide (e.kind = TopicKind.guild) && decide (e.topicId = gid)
            && (userSids (leave_guild_st1 uid gid st) uid).contains e.sid)) := rfl
  rw [e2, subscribed_iff, List.mem_filter]
  rw [subscribed_iff] at hsub
  refine ⟨hsub, ?_⟩
  have hc : (userSids (leave_guild_st1 uid gid st) uid).contains sid = false := by
    cases hb : (userSids (leave_guild_st1 uid gid st) uid).contains sid with
    | false => rfl
    | true => exact absurd ((contains_iff_mem _ _).mp hb) hnot
  simp [hc]
  exact hnot

/-- C1: in the leave-guild flow the leaving user's sessions receive
GUILD_DELETE, the user ends up unsubscribed from the guild topic, the
remaining guild subscribers receive GUILD_MEMBER_REMOVE carrying the guild
id and the user object — and in every state of the flow, a session of the
leaving user that is already unsubscribed has already received the
guild-removal event. -/
theorem leave_guild_flow (uid gid : Nat) (st : EngineState)
    (hmem : ∀ s ∈ st.sessions, s.userId = uid →
      subscribed st.subs .guild gid s.sid = true)
    (huniq : ∀ s ∈ st.sessions, ∀ t ∈ st.sessions,
      s.sid = t.sid → s.userId = t.userId) :
    (∀ s ∈ (leave_guild uid gid st).sessions, s.userId = uid →
      ∃ n, Delivery.mk "GUILD_DELETE" (Payload.guildDelete gid) n ∈ s.inbox)
    ∧ (∀ s ∈ (leave_guild uid gid st).sessions, s.userId = uid →
      subscribed (leave_guild uid gid st).subs .guild gid s.sid = false)
    ∧ (∀ s ∈ (leave_guild uid gid st).sessions, s.userId ≠ uid →
      subscribed st.subs .guild gid s.sid = true →
      ∃ n, Delivery.mk "GUILD_MEMBER_REMOVE" (Payload.memberRemove gid uid) n ∈ s.inbox)
    ∧ (∀ st2 ∈ leave_guild_states uid gid st, ∀ s ∈ st2.sessions, s.userId = uid →
      subscribed st2.subs .guild gid s.sid = false →
      ∃ n, Delivery.mk "GUILD_DELETE" (Payload.guildDelete gid) n ∈ s.inbox) := by
  have hdel1 : ∀ s0 ∈ st.sessions, s0.userId = uid →
      (⟨"GUILD_DELETE", Payload.guildDelete gid, s0.seq⟩ : Delivery) ∈
        ((fun s : Session =>
          if s.userId == uid && subscribed st.subs .guild gid s.sid
          then deliver "GUILD_DELETE" (.guildDelete gid) s else s) s0).inbox := by
    intro s0 hs0 huid
    have hp : (s0.userId == uid && subscribed st.subs .guild gid s0.sid) = true := by
      rw [Bool.and_eq_true]
      exact ⟨beq_iff_eq.mpr huid, hmem s0 hs0 huid⟩
    simp only [hp, if_true]
    exact deliver_self_mem _ _ _
  refine ⟨?_, ?_, ?_, ?_⟩
  · intro s2 hs2 huid2
    rw [mem_leave_guild_sessions] at hs2
    obtain ⟨s0, hs0, rfl⟩ := hs2
    rw [ite_deliver_userId, ite_deliver_userId] at huid2
    exact ⟨s0.seq, ite_deliver_inbox_mono _ _ _ _ _ (hdel1 s0 hs0 huid2)⟩
  · intro s2 hs2 huid2
    rw [mem_leave_guild_sessions] at hs2
    obtain ⟨s0, hs0, rfl⟩ := hs2
    rw [ite_deliver_userId, ite_deliver_userId] at huid2
    rw [leave_guild_final_subs, ite_deliver_sid, ite_deliver_sid]
    exact unsubscribed_after_st2 uid gid st s0.sid
      (mem_userSids_st1 uid gid st s0 hs0 huid2)
  · intro s2 hs2 huid2 hsub2
    rw [mem_leave_guild_sessions] at hs2
    obtain ⟨s0, hs0, rfl⟩ := hs2
    rw [ite_deliver_userId, ite_deliver_userId] at huid2
    rw [ite_deliver_sid, ite_deliver_sid] at hsub2
    have hstill : subscribed (leave_guild_st2 uid gid st).subs .guild gid
        ((fun s : Session =>
          if s.userId == uid && subscribed st.subs .guild gid s.sid
          then deliver "GUILD_DELETE" (.guildDelete gid) s else s) s0).sid = true := by
      rw [ite_deliver_sid]
      exact still_subscribed_after_st2 uid gid st s0.sid
        (notin_userSids_st1 uid gid st s0 hs0 huid2 huniq) hsub2
    simp only [hstill, if_true]
    exact ⟨_, deliver_self_mem _ _ _⟩
  · intro stx hstx
    simp only [leave_guild_states, List.mem_cons, List.not_mem_nil, or_false] at hstx
    rcases hstx with rfl | rfl | rfl | rfl
    · intro s hs huid hsubf
      exact absurd (hmem s hs huid) (by rw [hsubf]; exact Bool.false_ne_true)
    · intro s hs huid hsubf
      have e1 : (leave_guild_st1 uid gid st).sessions
          = st.sessions.map (fun s : Session =>
              if s.userId == uid && subscribed st.subs .guild gid s.sid
              then deliver "GUILD_DELETE" (.guildDelete gid) s else s) := rfl
      rw [e1, List.mem_map] at hs
      obtain ⟨s0, hs0, rfl⟩ := hs
      rw [ite_deliver_userId] at huid
      rw [leave_guild_st1_subs, ite_deliver_sid] at hsubf
      exact absurd (hmem s0 hs0 huid) (by rw [hsubf]; exact Bool.false_ne_true)
    · intro s hs huid hsubf
      have e1 : (leave_guild_st2 uid gid st).sessions
          = st.sessions.map (fun s : Session =>
              if s.userId == uid && subscribed st.subs .guild gid s.sid
              then deliver "GUILD_DELETE" (.guildDelete gid) s else s) := rfl
      rw [e1, List.mem_map] at hs
      obtain ⟨s0, hs0, rfl⟩ := hs
      rw [ite_deliver_userId] at huid
      exact ⟨s0.seq, hdel1 s0 hs0 huid⟩
    · intro s hs huid hsubf
      rw [mem_leave_guild_sessions] at hs
      obtain ⟨s0, hs0, rfl⟩ := hs
      rw [ite_deliver_userId, ite_deliver_userId] at huid
      exact ⟨s0.seq, ite_deliver_inbox_mono _ _ _ _ _ (hdel1 s0 hs0 huid)⟩

/-- Witness for C1: a two-session guild (leaver sid 1 of user 10, bystander
sid 2 of user 20); the leaver's final session holds the GUILD_DELETE
delivery. -/
theorem leave_guild_flow_witness :
    ∃ n, Delivery.mk "GUILD_DELETE" (Payload.guildDelete 5) n ∈
      (Session.mk 1 10 1 [⟨"GUILD_DELETE", Payload.guildDelete 5, 0⟩]).inbox :=
  (leave_guild_flow 10 5
      ⟨[⟨1, 10, 0, []⟩, ⟨2, 20, 0, []⟩], [⟨.guild, 5, 1⟩, ⟨.guild, 5, 2⟩]⟩
      (by decide) (by decide)).1
    (Session.mk 1 10 1 [⟨"GUILD_DELETE", Payload.guildDelete 5, 0⟩])
    (by decide) (by decide)

/-! ### Dispatch sequences of the PATCH handlers (C2) -/

/-- Counterexample to C2: the committed settings update issues exactly one
dispatch call — the account-level `dispatch_user` with USER_SETTINGS_UPDATE —
and zero `dispatch_many` calls, so it never publishes the settings-update
event to the user's guild or friend topics. -/
theorem patch_current_settings_no_many :
    patch_current_settings_calls 1 (Payload.raw "settings")
      = [DispatchCall.user 1 "USER_SETTINGS_UPDATE" (Payload.raw "settings")]
    ∧ (patch_current_settings_calls 1 (Payload.raw "settings")).countP isManyCall = 0 :=
  ⟨rfl, rfl⟩

/-- C2 amended: the settings update calls only `dispatch_user` with
USER_SETTINGS_UPDATE (delivering to the user's own sessions and to nobody
else); it is the profile update `patch_me` that calls `dispatch_user` and
then `dispatch_many` to the user's guilds and friends, with USER_UPDATE. -/
theorem patch_dispatch_calls (uid : Nat) (settings user_obj public_user : Payload)
    (guild_ids friend_ids : List Nat) (st : EngineState) :
    patch_current_settings_calls uid settings
      = [.user uid "USER_SETTINGS_UPDATE" settings]
    ∧ (patch_current_settings_calls uid settings).countP isManyCall = 0
    ∧ (runCalls (patch_current_settings_calls uid settings) st).sessions
      = st.sessions.map (fun s =>
          if s.userId == uid then deliver "USER_SETTINGS_UPDATE" settings s else s)
    ∧ patch_me_calls uid user_obj public_user guild_ids friend_ids
      = [.user uid "USER_UPDATE" user_obj,
         .many .guild guild_ids "USER_UPDATE" public_user,
         .many .friend friend_ids "USER_UPDATE" public_user] :=
  ⟨rfl, rfl, rfl, rfl⟩

end Litecord
